import Mathlib

/-!
Verification development for the aws-tools repository (three Python scripts:
scripts/aws_ami_finder.py, scripts/aws_ec2_find_amis.py,
scripts/aws_s3_object_finder.py).

The definitions below are a shallow embedding of the post-processing logic of
those scripts: timestamp parsing with Python's
datetime.strptime(s, "%Y-%m-%dT%H:%M:%S.%fZ"), the sort-then-filter pipeline of
find_amis, the paginated substring search of search_s3_object, and the two
input-validation variants.  Machine details that the scripts delegate to the
cloud SDK (network calls, pagination transport) are abstracted as explicit
lists of records and pages.
-/

/-! ### Python naive datetime values

datetime.datetime values produced by strptime are naive; comparison is
lexicographic on (year, month, day, hour, minute, second, microsecond). -/

structure PyDatetime where
  year : Nat
  month : Nat
  day : Nat
  hour : Nat
  minute : Nat
  second : Nat
  microsecond : Nat
deriving DecidableEq

/-- Python datetime `a <= b`: lexicographic comparison of the component
tuples, mirroring datetime.__le__ on naive datetimes. -/
def PyDatetime.le (a b : PyDatetime) : Bool :=
  if a.year ≠ b.year then decide (a.year < b.year)
  else if a.month ≠ b.month then decide (a.month < b.month)
  else if a.day ≠ b.day then decide (a.day < b.day)
  else if a.hour ≠ b.hour then decide (a.hour < b.hour)
  else if a.minute ≠ b.minute then decide (a.minute < b.minute)
  else if a.second ≠ b.second then decide (a.second < b.second)
  else decide (a.microsecond ≤ b.microsecond)

/-! ### strptime with the fixed format "%Y-%m-%dT%H:%M:%S.%fZ"

CPython's _strptime compiles the format to a regex (with IGNORECASE, so the
literals T and Z also match t and z), requires the regex to consume the whole
string, and then validates the fields through the datetime constructor
(year ≥ 1, day within the month, second ≤ 59).  The combinators below
reproduce that behaviour for this fixed format: %Y is exactly four digits,
%m/%d/%H/%M/%S are one or two digits (range-checked), %f is one to six digits
left-justified to microseconds. -/

def digitVal (c : Char) : Nat := c.toNat - 48

def digitsToNat (ds : List Char) : Nat :=
  ds.foldl (fun a c => a * 10 + digitVal c) 0

/-- Consume exactly n digits (the regex for %Y is four \d atoms). -/
def parseNDigits (n : Nat) (s : List Char) : Option (Nat × List Char) :=
  if (s.take n).length = n ∧ (s.take n).all (fun c => c.isDigit) then
    some (digitsToNat (s.take n), s.drop n)
  else none

/-- Consume one or two digits greedily; the following literal in the format is
never a digit, so this agrees with the regex alternations CPython generates
for %m, %d, %H, %M and %S (range checks are applied by the caller). -/
def parseUpTo2 : List Char → Option (Nat × List Char)
  | [] => none
  | [c] => if c.isDigit then some (digitVal c, []) else none
  | c :: d :: rest2 =>
    if c.isDigit then
      (if d.isDigit then some (digitVal c * 10 + digitVal d, rest2)
       else some (digitVal c, d :: rest2))
    else none

/-- Consume up to n leading digits, returning them and the remainder. -/
def takeDigitsUpTo : Nat → List Char → List Char × List Char
  | 0, s => ([], s)
  | _ + 1, [] => ([], [])
  | n + 1, c :: cs =>
    if c.isDigit then
      let p := takeDigitsUpTo n cs
      (c :: p.1, p.2)
    else ([], c :: cs)

/-- Parse %f: one to six digits, left-justified with zeros to microseconds
(CPython: int(found.ljust(6, Char.ofNat 48))). -/
def parseFraction (s : List Char) : Option (Nat × List Char) :=
  let p := takeDigitsUpTo 6 s
  if p.1.isEmpty then none
  else some (digitsToNat p.1 * 10 ^ (6 - p.1.length), p.2)

/-- Consume one literal character (the regex escapes it; case-sensitive for
the non-letter literals of this format). -/
def expectChar (c : Char) : List Char → Option (List Char)
  | [] => none
  | x :: rest => if x = c then some rest else none

/-- Consume one literal letter case-insensitively (the strptime regex is
compiled with IGNORECASE, so T matches t and Z matches z). -/
def expectCharCI (c : Char) : List Char → Option (List Char)
  | [] => none
  | x :: rest => if x.toLower = c.toLower then some rest else none

def isLeapYear (y : Nat) : Bool :=
  y % 4 = 0 ∧ (y % 100 ≠ 0 ∨ y % 400 = 0)

def daysInMonth (y m : Nat) : Nat :=
  if m = 2 then (if isLeapYear y then 29 else 28)
  else if m = 4 ∨ m = 6 ∨ m = 9 ∨ m = 11 then 30
  else 31

/-- datetime.datetime.strptime(s, "%Y-%m-%dT%H:%M:%S.%fZ") as a total
function: some datetime on success, none when CPython would raise
ValueError (regex mismatch, trailing input, or constructor range check). -/
def strptimeAmiFormat (s : String) : Option PyDatetime :=
  match parseNDigits 4 s.data with
  | none => none
  | some p1 =>
  match expectChar '-' p1.2 with
  | none => none
  | some s1 =>
  match parseUpTo2 s1 with
  | none => none
  | some p2 =>
  match expectChar '-' p2.2 with
  | none => none
  | some s2 =>
  match parseUpTo2 s2 with
  | none => none
  | some p3 =>
  match expectCharCI 'T' p3.2 with
  | none => none
  | some s3 =>
  match parseUpTo2 s3 with
  | none => none
  | some p4 =>
  match expectChar ':' p4.2 with
  | none => none
  | some s4 =>
  match parseUpTo2 s4 with
  | none => none
  | some p5 =>
  match expectChar ':' p5.2 with
  | none => none
  | some s5 =>
  match parseUpTo2 s5 with
  | none => none
  | some p6 =>
  match expectChar '.' p6.2 with
  | none => none
  | some s6 =>
  match parseFraction s6 with
  | none => none
  | some p7 =>
  match expectCharCI 'Z' p7.2 with
  | none => none
  | some s7 =>
  if s7 = [] ∧ 1 ≤ p1.1 ∧ 1 ≤ p2.1 ∧ p2.1 ≤ 12 ∧ 1 ≤ p3.1 ∧
      p3.1 ≤ daysInMonth p1.1 p2.1 ∧ p4.1 ≤ 23 ∧ p5.1 ≤ 59 ∧ p6.1 ≤ 59 then
    some ⟨p1.1, p2.1, p3.1, p4.1, p5.1, p6.1, p7.1⟩
  else none

/-! ### Image records and the find_amis post-processing
(scripts/aws_ami_finder.py, lines 81-89; identical logic at
scripts/aws_ec2_find_amis.py, lines 76-84) -/

structure AmiRecord where
  imageId : String
  name : String
  architecture : String
  virtualizationType : String
  creationDate : String
deriving DecidableEq

/-- The sort key comparison: Python compares the tuples
(x.Architecture, x.Name) lexicographically, each component by code-point
string order. -/
def amiSortLe (a b : AmiRecord) : Bool :=
  decide (a.architecture < b.architecture) ||
    (a.architecture == b.architecture && decide (a.name ≤ b.name))

/-- sorted(amis, key=lambda x: (x.Architecture, x.Name)): Python's sort is
stable, as is List.mergeSort, so this is the exact list the script builds. -/
def sortAmis (amis : List AmiRecord) : List AmiRecord :=
  amis.mergeSort amiSortLe

/-- The loop over sorted_amis: parse each CreationDate with strptime and keep
the record when creation_date >= DATE_THRESHOLD.  An unparsable timestamp
raises ValueError, which nothing catches; the Except error models that fatal
propagation. -/
def selectLatest (threshold : PyDatetime) : List AmiRecord → Except Unit (List AmiRecord)
  | [] => .ok []
  | a :: rest =>
    match strptimeAmiFormat a.creationDate with
    | none => .error ()
    | some d =>
      match selectLatest threshold rest with
      | .error e => .error e
      | .ok tail => .ok (if PyDatetime.le threshold d then a :: tail else tail)

/-- The record-level filter decision: CreationDate parses and the parsed
datetime is at or after the threshold. -/
def keepAmi (threshold : PyDatetime) (a : AmiRecord) : Bool :=
  match strptimeAmiFormat a.creationDate with
  | none => false
  | some d => PyDatetime.le threshold d

/-- find_amis post-processing: sort by (Architecture, Name), then filter by
DATE_THRESHOLD = CURRENT_TIME - timedelta(days=DAYS_THRESHOLD).  The threshold
is passed explicitly; the scripts compute it once at module load. -/
def find_amis_post (threshold : PyDatetime) (amis : List AmiRecord) :
    Except Unit (List AmiRecord) :=
  selectLatest threshold (sortAmis amis)

/-! ### search_s3_object (scripts/aws_s3_object_finder.py, lines 85-96) -/

/-- One page from the list_objects_v2 paginator: the Contents entry is absent
on empty pages, otherwise it carries the object keys of the page. -/
structure S3Page where
  contents : Option (List String)
deriving DecidableEq

/-- The Python membership test object_name in key: case-sensitive substring
containment. -/
def keyMatches (objectName key : String) : Bool :=
  decide (objectName.data <:+: key.data)

/-- The matching keys the loop body computes for one page (empty when the
page has no Contents entry). -/
def pageMatchingKeys (objectName : String) (page : S3Page) : List String :=
  match page.contents with
  | none => []
  | some keys => keys.filter (fun k => keyMatches objectName k)

inductive SearchResult where
  | found : List String → SearchResult
  | notFound : SearchResult
deriving DecidableEq

/-- The loop of search_s3_object: for each page, if Contents is present,
filter its keys by substring containment; on the first page with a non-empty
filtered list, report those keys and return; after exhausting all pages,
report not found (a printed message, not an exception). -/
def search_s3_object (objectName : String) : List S3Page → SearchResult
  | [] => .notFound
  | page :: rest =>
    match page.contents with
    | none => search_s3_object objectName rest
    | some keys =>
      let objects := keys.filter (fun k => keyMatches objectName k)
      if objects.isEmpty then search_s3_object objectName rest
      else .found objects

/-- Same loop, also counting how many pages were taken from the paginator
before returning. -/
def search_s3_objectTrace (objectName : String) : List S3Page → SearchResult × Nat
  | [] => (.notFound, 0)
  | page :: rest =>
    match page.contents with
    | none =>
      let r := search_s3_objectTrace objectName rest
      (r.1, r.2 + 1)
    | some keys =>
      let objects := keys.filter (fun k => keyMatches objectName k)
      if objects.isEmpty then
        let r := search_s3_objectTrace objectName rest
        (r.1, r.2 + 1)
      else (.found objects, 1)

/-! ### Input validation (aws_ami_finder.validate_inputs lines 29-51 with
get_valid_os_versions line 62-64; aws_ec2_find_amis.validate_inputs lines
28-39 with validate_os_version lines 50-59) -/

/-- Glob matching as fnmatch.fnmatch performs it on POSIX for the patterns
this repository uses: a star matches any sequence, a question mark any single
character, and every other pattern character must match exactly.  The
allow-list patterns contain no bracket classes, so those are not modelled. -/
def globMatch : List Char → List Char → Bool
  | [], s => s.isEmpty
  | p :: ps, s =>
    if p = '*' then
      (List.tails s).any (fun t => globMatch ps t)
    else
      match s with
      | [] => false
      | c :: cs => (p == '?' || p == c) && globMatch ps cs

def get_valid_os_versions : List String :=
  ["amzn2", "debian*", "rhel*", "suse*", "ubuntu*", "Windows*"]

/-- The acceptance test of aws_ami_finder.validate_inputs line 42: os_version
is truthy and fnmatch.fnmatch(os_version, version) holds for some allow-list
pattern. -/
def osAccepted_amiFinder (osVersion : String) : Bool :=
  decide (osVersion ≠ "") &&
    get_valid_os_versions.any (fun v => globMatch v.data osVersion.data)

def valid_os_versions_ec2 : List String :=
  ["amzn2", "debian-11", "ubuntu-jammy", "Windows_Server-2019-English"]

/-- The acceptance test of aws_ec2_find_amis.validate_os_version: the
function returns normally when os_version.startswith(version) for some entry
of its allow-list. -/
def osAccepted_ec2FindAmis (osVersion : String) : Bool :=
  valid_os_versions_ec2.any (fun v => v.data.isPrefixOf osVersion.data)

/-- Outcome of a validation pass: either the process terminates via
sys.exit (carrying the process exit status) or validation falls through. -/
inductive ExitOrOk where
  | exited : Nat → ExitOrOk
  | ok : ExitOrOk
deriving DecidableEq

/-- aws_ami_finder.validate_inputs: an unknown non-empty region, then an
empty or unmatched OS version, each print the available values and call
sys.exit() with no argument - CPython maps SystemExit(None) to process exit
status 0. -/
def validate_inputs_amiFinder (availableRegions : List String)
    (region osVersion : String) : ExitOrOk :=
  if region ≠ "" ∧ region ∉ availableRegions then .exited 0
  else if ¬ osAccepted_amiFinder osVersion then .exited 0
  else .ok

/-- aws_ec2_find_amis.validate_inputs: same region check; the OS check runs
only when os_version is truthy and uses the startswith allow-list; both
failure paths call sys.exit() with no argument (process exit status 0). -/
def validate_inputs_ec2 (availableRegions : List String)
    (region osVersion : String) : ExitOrOk :=
  if region ≠ "" ∧ region ∉ availableRegions then .exited 0
  else if osVersion ≠ "" ∧ ¬ osAccepted_ec2FindAmis osVersion then .exited 0
  else .ok

/-! ## Lemmas about the find_amis pipeline -/

theorem selectLatest_ok_of_parse (t : PyDatetime) :
    ∀ l : List AmiRecord, (∀ a ∈ l, (strptimeAmiFormat a.creationDate).isSome = true) →
      selectLatest t l = .ok (l.filter (keepAmi t))
  | [], _ => rfl
  | a :: l, h => by
    obtain ⟨d, hd⟩ := Option.isSome_iff_exists.mp (h a (List.mem_cons_self a l))
    have ih := selectLatest_ok_of_parse t l (fun b hb => h b (List.mem_cons_of_mem a hb))
    by_cases hle : PyDatetime.le t d = true
    · simp [selectLatest, hd, ih, List.filter_cons, keepAmi, hle]
    · simp [selectLatest, hd, ih, List.filter_cons, keepAmi, hle]

theorem selectLatest_error_of_bad (t : PyDatetime) :
    ∀ l : List AmiRecord, ∀ a ∈ l, strptimeAmiFormat a.creationDate = none →
      selectLatest t l = .error ()
  | [], a, ha, _ => absurd ha (List.not_mem_nil a)
  | b :: l, a, ha, hnone => by
    rcases List.mem_cons.mp ha with rfl | ha'
    · simp [selectLatest, hnone]
    · cases hb : strptimeAmiFormat b.creationDate with
      | none => simp [selectLatest, hb]
      | some d =>
        have ih := selectLatest_error_of_bad t l a ha' hnone
        simp [selectLatest, hb, ih]

theorem selectLatest_ok_elim {t : PyDatetime} {l out : List AmiRecord}
    (h : selectLatest t l = .ok out) : out = l.filter (keepAmi t) := by
  by_cases hall : ∀ a ∈ l, (strptimeAmiFormat a.creationDate).isSome = true
  · rw [selectLatest_ok_of_parse t l hall] at h
    simp only [Except.ok.injEq] at h
    exact h.symm
  · push_neg at hall
    obtain ⟨a, ha, hnone⟩ := hall
    rw [selectLatest_error_of_bad t l a ha (Option.not_isSome_iff_eq_none.mp hnone)] at h
    simp at h

/-- Claim C1: for every image record and retention window, the find_amis
filter retains the record iff its creation timestamp is at or after the
inclusive lower bound DATE_THRESHOLD: records strictly below the bound are
excluded from the output, records at or after it are included. -/
theorem c1_retained_iff_at_or_after_threshold (threshold : PyDatetime)
    (amis out : List AmiRecord) (h : find_amis_post threshold amis = .ok out)
    (a : AmiRecord) (ha : a ∈ amis) (d : PyDatetime)
    (hd : strptimeAmiFormat a.creationDate = some d) :
    a ∈ out ↔ PyDatetime.le threshold d = true := by
  have hout : out = (sortAmis amis).filter (keepAmi threshold) := selectLatest_ok_elim h
  subst hout
  rw [List.mem_filter]
  constructor
  · rintro ⟨-, hk⟩
    simpa [keepAmi, hd] using hk
  · intro hle
    exact ⟨by simpa [sortAmis] using ha, by simp [keepAmi, hd, hle]⟩

def amiA : AmiRecord :=
  ⟨"ami-0001", "al2023-ami-kernel", "x86_64", "hvm", "2024-06-01T12:30:45.123456Z"⟩

def thresholdA : PyDatetime := ⟨2024, 3, 1, 0, 0, 0, 0⟩

def parsedA : PyDatetime := ⟨2024, 6, 1, 12, 30, 45, 123456⟩

theorem find_amis_post_amiA : find_amis_post thresholdA [amiA] = .ok [amiA] := by
  show selectLatest thresholdA (sortAmis [amiA]) = .ok [amiA]
  rw [sortAmis, List.mergeSort_singleton]
  rfl

/-- Witness for C1 at a concrete record and threshold. -/
theorem c1_witness : amiA ∈ [amiA] ↔ PyDatetime.le thresholdA parsedA = true :=
  c1_retained_iff_at_or_after_threshold thresholdA [amiA] [amiA] find_amis_post_amiA
    amiA (List.mem_cons_self amiA []) parsedA (by rfl)

/-- The ordering the spec describes: ascending by architecture string, ties
broken ascending by name string, both lexicographic. -/
def amiKeyLE (a b : AmiRecord) : Prop :=
  a.architecture < b.architecture ∨
    (a.architecture = b.architecture ∧ a.name ≤ b.name)

theorem amiSortLe_iff (a b : AmiRecord) : amiSortLe a b = true ↔ amiKeyLE a b := by
  simp [amiSortLe, amiKeyLE, Bool.or_eq_true, Bool.and_eq_true, decide_eq_true_eq]

theorem amiSortLe_trans : ∀ (a b c : AmiRecord),
    amiSortLe a b → amiSortLe b c → amiSortLe a c := by
  intro a b c hab hbc
  rw [amiSortLe_iff] at hab hbc ⊢
  rcases hab with h1 | ⟨e1, n1⟩
  · rcases hbc with h2 | ⟨e2, n2⟩
    · exact Or.inl (lt_trans h1 h2)
    · exact Or.inl (e2 ▸ h1)
  · rcases hbc with h2 | ⟨e2, n2⟩
    · exact Or.inl (e1 ▸ h2)
    · exact Or.inr ⟨e1.trans e2, le_trans n1 n2⟩

theorem amiSortLe_total : ∀ (a b : AmiRecord), amiSortLe a b || amiSortLe b a := by
  intro a b
  rw [Bool.or_eq_true, amiSortLe_iff, amiSortLe_iff]
  rcases lt_trichotomy a.architecture b.architecture with h | h | h
  · exact Or.inl (Or.inl h)
  · rcases le_total a.name b.name with hn | hn
    · exact Or.inl (Or.inr ⟨h, hn⟩)
    · exact Or.inr (Or.inr ⟨h.symm, hn⟩)
  · exact Or.inr (Or.inl h)

/-- Claim C2: the output of the filter/sort pipeline is ordered
non-decreasingly by the pair (architecture, name), architecture first and
name second, both components compared lexicographically; the input list is
universally quantified, so this holds for every permutation of any record
multiset. -/
theorem c2_output_sorted_by_arch_then_name (threshold : PyDatetime)
    (amis out : List AmiRecord) (h : find_amis_post threshold amis = .ok out) :
    out.Pairwise amiKeyLE := by
  have hout : out = (sortAmis amis).filter (keepAmi threshold) := selectLatest_ok_elim h
  subst hout
  have hs : (sortAmis amis).Pairwise fun a b => amiSortLe a b = true :=
    List.sorted_mergeSort amiSortLe_trans amiSortLe_total amis
  exact (hs.filter (keepAmi threshold)).imp fun hab => (amiSortLe_iff _ _).mp hab

/-- Witness for C2 at a concrete input. -/
theorem c2_witness : ([amiA] : List AmiRecord).Pairwise amiKeyLE :=
  c2_output_sorted_by_arch_then_name thresholdA [amiA] [amiA] find_amis_post_amiA

def amiBad : AmiRecord :=
  ⟨"ami-0002", "al2023-ami-bad", "arm64", "hvm", "2024-06-01T12:30:45Z"⟩

/-- Claim C6: an image record whose creation-timestamp string does not parse
in the expected format makes the filter raise an uncaught, unrecovered parse
failure that terminates the run. -/
theorem c6_malformed_timestamp_is_fatal (threshold : PyDatetime)
    (amis : List AmiRecord) (a : AmiRecord) (ha : a ∈ amis)
    (hbad : strptimeAmiFormat a.creationDate = none) :
    find_amis_post threshold amis = .error () :=
  selectLatest_error_of_bad threshold (sortAmis amis) a
    (by simpa [sortAmis] using ha) hbad

/-- Witness for C6: a timestamp without fractional seconds is fatal. -/
theorem c6_witness : find_amis_post thresholdA [amiBad] = .error () :=
  c6_malformed_timestamp_is_fatal thresholdA [amiBad] amiBad
    (List.mem_cons_self amiBad []) (by rfl)

/-! ## Stability: filtering commutes with the stable sort -/

theorem append_sep_eq {α : Type} (q : α → Bool) :
    ∀ (xs ys us vs : List α), xs ++ ys = us ++ vs →
      (∀ b ∈ xs, q b = false) → (∀ b ∈ ys, q b = true) →
      (∀ b ∈ us, q b = false) → (∀ b ∈ vs, q b = true) →
      xs = us ∧ ys = vs
  | [], ys, [], vs, h, _, _, _, _ => ⟨rfl, by simpa using h⟩
  | [], ys, u :: us, vs, h, _, hy, hu, _ => by
    exfalso
    have hmem : u ∈ ys := by
      have h' : ys = u :: (us ++ vs) := by simpa using h
      rw [h']
      exact List.mem_cons_self u (us ++ vs)
    have ht := hy u hmem
    have hf := hu u (List.mem_cons_self u us)
    rw [ht] at hf
    exact Bool.noConfusion hf
  | x :: xs, ys, [], vs, h, hx, _, _, hv => by
    exfalso
    have hmem : x ∈ vs := by
      have h' : vs = x :: (xs ++ ys) := by simpa using h.symm
      rw [h']
      exact List.mem_cons_self x (xs ++ ys)
    have ht := hv x hmem
    have hf := hx x (List.mem_cons_self x xs)
    rw [ht] at hf
    exact Bool.noConfusion hf
  | x :: xs, ys, u :: us, vs, h, hx, hy, hu, hv => by
    rw [List.cons_append, List.cons_append] at h
    injection h with h1 h2
    subst h1
    have ih := append_sep_eq q xs ys us vs h2
      (fun b hb => hx b (List.mem_cons_of_mem x hb)) hy
      (fun b hb => hu b (List.mem_cons_of_mem x hb)) hv
    exact ⟨by rw [ih.1], ih.2⟩

theorem mergeSort_filter_comm {α : Type} (le : α → α → Bool)
    (htrans : ∀ (a b c : α), le a b → le b c → le a c)
    (htotal : ∀ (a b : α), le a b || le b a)
    (p : α → Bool) : ∀ l : List α,
      (l.mergeSort le).filter p = (l.filter p).mergeSort le := by
  intro l
  induction l with
  | nil => simp
  | cons a t ih =>
    obtain ⟨l₁, l₂, h₁, h₂, hl₁⟩ := List.mergeSort_cons htrans htotal a t
    by_cases hp : p a = true
    · obtain ⟨m₁, m₂, g₁, g₂, gm₁⟩ := List.mergeSort_cons htrans htotal a (t.filter p)
      have hmm : m₁ ++ m₂ = l₁.filter p ++ l₂.filter p := by
        calc m₁ ++ m₂ = (t.filter p).mergeSort le := g₂.symm
          _ = (t.mergeSort le).filter p := ih.symm
          _ = (l₁ ++ l₂).filter p := by rw [h₂]
          _ = l₁.filter p ++ l₂.filter p := List.filter_append ..
      have hsort1 : (m₁ ++ a :: m₂).Pairwise fun x y => le x y = true := by
        rw [← g₁]
        exact List.sorted_mergeSort htrans htotal _
      have hsort2 : (l₁ ++ a :: l₂).Pairwise fun x y => le x y = true := by
        rw [← h₁]
        exact List.sorted_mergeSort htrans htotal _
      have hm₂ : ∀ b ∈ m₂, le a b = true := fun b hb =>
        List.rel_of_pairwise_cons (List.pairwise_append.mp hsort1).2.1 hb
      have hl₂ : ∀ b ∈ l₂, le a b = true := fun b hb =>
        List.rel_of_pairwise_cons (List.pairwise_append.mp hsort2).2.1 hb
      have sep := append_sep_eq (fun x => le a x) m₁ m₂ (l₁.filter p) (l₂.filter p) hmm
        (fun b hb => by simpa using gm₁ b hb)
        hm₂
        (fun b hb => by simpa using hl₁ b (List.mem_of_mem_filter hb))
        (fun b hb => hl₂ b (List.mem_of_mem_filter hb))
      simp only [h₁, g₁, List.filter_append, List.filter_cons, hp, if_pos]
      rw [sep.1, sep.2]
    · simp only [h₁, List.filter_append, List.filter_cons, hp]
      simp only [Bool.false_eq_true, if_false]
      rw [← List.filter_append, ← h₂, ih]

/-- Claim C8: sorting by (architecture, name) and then filtering by the date
threshold, as find_amis does, is extensionally equal to filtering first and
then sorting, as the contract describes: on a malformed timestamp both
pipelines propagate the same fatal failure, and otherwise they produce the
same list. -/
theorem c8_sort_filter_pipelines_equal (threshold : PyDatetime)
    (amis : List AmiRecord) :
    find_amis_post threshold amis =
      Except.map sortAmis (selectLatest threshold amis) := by
  by_cases hall : ∀ a ∈ amis, (strptimeAmiFormat a.creationDate).isSome = true
  · have hall' : ∀ a ∈ sortAmis amis, (strptimeAmiFormat a.creationDate).isSome = true :=
      fun a ha => hall a (by simpa [sortAmis] using ha)
    unfold find_amis_post
    rw [selectLatest_ok_of_parse threshold (sortAmis amis) hall',
      selectLatest_ok_of_parse threshold amis hall]
    simp only [Except.map]
    simp only [sortAmis]
    rw [mergeSort_filter_comm amiSortLe amiSortLe_trans amiSortLe_total
      (keepAmi threshold) amis]
  · push_neg at hall
    obtain ⟨a, ha, hnone⟩ := hall
    have hbad := Option.not_isSome_iff_eq_none.mp hnone
    unfold find_amis_post
    rw [selectLatest_error_of_bad threshold (sortAmis amis) a
      (by simpa [sortAmis] using ha) hbad,
      selectLatest_error_of_bad threshold amis a ha hbad]
    rfl

/-! ## search_s3_object: first-match short circuit and full enumeration -/

/-- Claim C3: when the page sequence splits as pre ++ page :: post with no
substring match anywhere in pre and at least one match on page, the search
returns exactly page's matching keys (case-sensitive substring containment,
not prefix or glob match) and consumes only pre.length + 1 pages, never
examining any page after the first matching one. -/
theorem c3_first_match_short_circuits (objectName : String)
    (pre post : List S3Page) (page : S3Page)
    (hpre : ∀ p ∈ pre, pageMatchingKeys objectName p = [])
    (hpage : pageMatchingKeys objectName page ≠ []) :
    search_s3_object objectName (pre ++ page :: post) =
        .found (pageMatchingKeys objectName page) ∧
      search_s3_objectTrace objectName (pre ++ page :: post) =
        (.found (pageMatchingKeys objectName page), pre.length + 1) := by
  induction pre with
  | nil =>
    cases hc : page.contents with
    | none => exact absurd (by simp [pageMatchingKeys, hc]) hpage
    | some keys =>
      have hne : (keys.filter (fun k => keyMatches objectName k)).isEmpty = false := by
        cases hfl : keys.filter (fun k => keyMatches objectName k) with
        | nil => exact absurd (by simp [pageMatchingKeys, hc, hfl]) hpage
        | cons k ks => rfl
      constructor
      · simp [search_s3_object, hc, hne, pageMatchingKeys]
      · simp [search_s3_objectTrace, hc, hne, pageMatchingKeys]
  | cons q pre ih =>
    obtain ⟨ih1, ih2⟩ := ih (fun p hp => hpre p (List.mem_cons_of_mem q hp))
    have hq := hpre q (List.mem_cons_self q pre)
    cases hc : q.contents with
    | none =>
      constructor
      · simpa [search_s3_object, hc] using ih1
      · simp [search_s3_objectTrace, hc, ih2]
    | some keys =>
      have hempty : (keys.filter (fun k => keyMatches objectName k)).isEmpty = true := by
        simp only [pageMatchingKeys, hc] at hq
        simp [hq]
      constructor
      · simpa [search_s3_object, hc, hempty] using ih1
      · simp [search_s3_objectTrace, hc, hempty, ih2]

/-- Witness for C3, on the spec's own example: pages
[[logs/2024/a.txt], [logs/2024/b.txt, data/b.csv]] with target b return the
matches of page 2 after consuming both pages (no page follows). -/
theorem c3_witness :
    search_s3_object ("b")
        ([⟨some ["logs/2024/a.txt"]⟩] ++ ⟨some ["logs/2024/b.txt", "data/b.csv"]⟩ :: []) =
        .found (pageMatchingKeys ("b") ⟨some ["logs/2024/b.txt", "data/b.csv"]⟩) ∧
      search_s3_objectTrace ("b")
        ([⟨some ["logs/2024/a.txt"]⟩] ++ ⟨some ["logs/2024/b.txt", "data/b.csv"]⟩ :: []) =
        (.found (pageMatchingKeys ("b") ⟨some ["logs/2024/b.txt", "data/b.csv"]⟩), 2) :=
  c3_first_match_short_circuits ("b") [⟨some ["logs/2024/a.txt"]⟩] []
    ⟨some ["logs/2024/b.txt", "data/b.csv"]⟩ (by decide) (by decide)

/-- Claim C4: when no key of any page contains the target substring, the
search consumes every page and ends in the not-found outcome, which is an
ordinary result value of the scan (a printed message), not an error. -/
theorem c4_no_match_scans_all_pages (objectName : String) (pages : List S3Page)
    (h : ∀ p ∈ pages, pageMatchingKeys objectName p = []) :
    search_s3_object objectName pages = .notFound ∧
      search_s3_objectTrace objectName pages = (.notFound, pages.length) := by
  induction pages with
  | nil => exact ⟨rfl, rfl⟩
  | cons q rest ih =>
    obtain ⟨ih1, ih2⟩ := ih (fun p hp => h p (List.mem_cons_of_mem q hp))
    have hq := h q (List.mem_cons_self q rest)
    cases hc : q.contents with
    | none =>
      exact ⟨by simpa [search_s3_object, hc] using ih1,
        by simp [search_s3_objectTrace, hc, ih2]⟩
    | some keys =>
      have hempty : (keys.filter (fun k => keyMatches objectName k)).isEmpty = true := by
        simp only [pageMatchingKeys, hc] at hq
        simp [hq]
      exact ⟨by simpa [search_s3_object, hc, hempty] using ih1,
        by simp [search_s3_objectTrace, hc, hempty, ih2]⟩

/-- Witness for C4 at a concrete page list with no match. -/
theorem c4_witness :
    search_s3_object ("missing-key") [⟨some ["logs/a.txt"]⟩, ⟨none⟩] = .notFound ∧
      search_s3_objectTrace ("missing-key") [⟨some ["logs/a.txt"]⟩, ⟨none⟩] =
        (.notFound, 2) :=
  c4_no_match_scans_all_pages ("missing-key") [⟨some ["logs/a.txt"]⟩, ⟨none⟩]
    (by decide)

/-- Claim C10: a page with no Contents entry, or one whose keys all fail the
substring test, is skipped without error: it never terminates the search or
counts as the first matching page, and the scan proceeds to the next page
having consumed exactly one more page. -/
theorem c10_nonmatching_page_is_skipped (objectName : String) (page : S3Page)
    (rest : List S3Page)
    (h : page.contents = none ∨ pageMatchingKeys objectName page = []) :
    search_s3_object objectName (page :: rest) = search_s3_object objectName rest ∧
      search_s3_objectTrace objectName (page :: rest) =
        ((search_s3_objectTrace objectName rest).1,
          (search_s3_objectTrace objectName rest).2 + 1) := by
  rcases h with hc | hm
  · exact ⟨by simp [search_s3_object, hc], by simp [search_s3_objectTrace, hc]⟩
  · cases hc : page.contents with
    | none =>
      exact ⟨by simp [search_s3_object, hc], by simp [search_s3_objectTrace, hc]⟩
    | some keys =>
      have hempty : (keys.filter (fun k => keyMatches objectName k)).isEmpty = true := by
        simp only [pageMatchingKeys, hc] at hm
        simp [hm]
      exact ⟨by simp [search_s3_object, hc, hempty],
        by simp [search_s3_objectTrace, hc, hempty]⟩

/-- Witness for C10 at a concrete Contents-less page. -/
theorem c10_witness :
    search_s3_object ("key") (⟨none⟩ :: [⟨some ["key-1"]⟩]) =
        search_s3_object ("key") [⟨some ["key-1"]⟩] ∧
      search_s3_objectTrace ("key") (⟨none⟩ :: [⟨some ["key-1"]⟩]) =
        ((search_s3_objectTrace ("key") [⟨some ["key-1"]⟩]).1,
          (search_s3_objectTrace ("key") [⟨some ["key-1"]⟩]).2 + 1) :=
  c10_nonmatching_page_is_skipped ("key") ⟨none⟩ [⟨some ["key-1"]⟩] (Or.inl rfl)

/-! ## Validation exit behaviour and the two allow-list variants -/

/-- Counterexample to claim C5: this invocation has a region outside the
available-region list, so validation fails and the script prints the
available values and calls sys.exit() with no argument - but SystemExit with
no code gives process exit status 0, not a non-zero status; the same holds
for the second script's validator. -/
theorem c5_counterexample :
    ("mars-central-1" ∉ ["us-east-1", "us-west-2"]) ∧
      validate_inputs_amiFinder ["us-east-1", "us-west-2"] ("mars-central-1")
        ("debian-12") = .exited 0 ∧
      validate_inputs_ec2 ["us-east-1", "us-west-2"] ("mars-central-1")
        ("debian-11") = .exited 0 := by
  decide

/-- Claim C5 (amended): for every invocation whose region or OS-version
argument fails validation, either script prints the usage/available-values
text and terminates via sys.exit() with no argument, i.e. with process exit
status zero. -/
theorem c5_amended_validation_failure_exits_zero (availableRegions : List String)
    (region osVersion : String) :
    (validate_inputs_amiFinder availableRegions region osVersion ≠ .ok →
        validate_inputs_amiFinder availableRegions region osVersion = .exited 0) ∧
      (validate_inputs_ec2 availableRegions region osVersion ≠ .ok →
        validate_inputs_ec2 availableRegions region osVersion = .exited 0) := by
  constructor
  · intro h
    unfold validate_inputs_amiFinder at h ⊢
    split_ifs at h ⊢ <;> simp_all
  · intro h
    unfold validate_inputs_ec2 at h ⊢
    split_ifs at h ⊢ <;> simp_all

/-- Witness for amended C5 at a concrete failing invocation. -/
theorem c5_witness :
    validate_inputs_amiFinder ["us-east-1"] ("atlantis-north-1") ("debian-12") =
      .exited 0 :=
  (c5_amended_validation_failure_exits_zero ["us-east-1"] ("atlantis-north-1")
    ("debian-12")).1 (by decide)

/-- Claim C7: the two scripts' OS-version validators are not extensionally
equal: debian-12 matches the glob pattern debian* of aws_ami_finder's
allow-list but starts with no entry of aws_ec2_find_amis' literal
allow-list, so one accepts it and the other rejects it. -/
theorem c7_os_validators_disagree :
    ∃ osVersion : String, osAccepted_amiFinder osVersion = true ∧
      osAccepted_ec2FindAmis osVersion = false :=
  ⟨"debian-12", by decide, by decide⟩

/-! ## Shape of the strings strptimeAmiFormat accepts -/

theorem parseNDigits_some_decomp {n : Nat} {s : List Char} {p : Nat × List Char}
    (h : parseNDigits n s = some p) : s = s.take n ++ p.2 := by
  unfold parseNDigits at h
  split at h
  · simp only [Option.some.injEq] at h
    subst h
    exact (List.take_append_drop n s).symm
  · exact Option.noConfusion h

theorem parseUpTo2_some_decomp {s : List Char} {p : Nat × List Char}
    (h : parseUpTo2 s = some p) : ∃ pre : List Char, s = pre ++ p.2 := by
  cases s with
  | nil => exact Option.noConfusion h
  | cons c rest =>
    cases rest with
    | nil =>
      simp only [parseUpTo2] at h
      split at h
      · simp only [Option.some.injEq] at h
        subst h
        exact ⟨[c], rfl⟩
      · exact Option.noConfusion h
    | cons d rest2 =>
      simp only [parseUpTo2] at h
      split at h
      · split at h
        · simp only [Option.some.injEq] at h
          subst h
          exact ⟨[c, d], rfl⟩
        · simp only [Option.some.injEq] at h
          subst h
          exact ⟨[c], rfl⟩
      · exact Option.noConfusion h

theorem takeDigitsUpTo_decomp : ∀ (n : Nat) (s : List Char),
    (takeDigitsUpTo n s).1 ++ (takeDigitsUpTo n s).2 = s
  | 0, _ => rfl
  | _ + 1, [] => rfl
  | n + 1, c :: cs => by
    simp only [takeDigitsUpTo]
    split
    · simpa using takeDigitsUpTo_decomp n cs
    · rfl

theorem parseFraction_some_decomp {s : List Char} {p : Nat × List Char}
    (h : parseFraction s = some p) : ∃ pre : List Char, s = pre ++ p.2 := by
  simp only [parseFraction] at h
  split at h
  · exact Option.noConfusion h
  · simp only [Option.some.injEq] at h
    subst h
    exact ⟨(takeDigitsUpTo 6 s).1, (takeDigitsUpTo_decomp 6 s).symm⟩

theorem expectChar_some_decomp {c : Char} {s r : List Char}
    (h : expectChar c s = some r) : s = c :: r := by
  cases s with
  | nil => exact Option.noConfusion h
  | cons x rest =>
    simp only [expectChar] at h
    split at h
    · rename_i hx
      simp only [Option.some.injEq] at h
      rw [hx, h]
    · exact Option.noConfusion h

theorem expectCharCI_some_decomp {c : Char} {s r : List Char}
    (h : expectCharCI c s = some r) : ∃ x, s = x :: r ∧ x.toLower = c.toLower := by
  cases s with
  | nil => exact Option.noConfusion h
  | cons x rest =>
    simp only [expectCharCI] at h
    split at h
    · rename_i hx
      simp only [Option.some.injEq] at h
      exact ⟨x, by rw [h], hx⟩
    · exact Option.noConfusion h

/-- Claim C9: strptime with the fixed format %Y-%m-%dT%H:%M:%S.%fZ accepts
only strings of that exact shape: every accepted string contains the
fractional-seconds dot and ends with the literal Z (or z - the generated
regex is case-insensitive on letters); an ISO-8601 timestamp without
fractional seconds, or with a numeric UTC offset in place of Z, is rejected
even though it denotes a valid instant, and such a timestamp on a record
makes find_amis fail fatally, while the exact format is accepted. -/
theorem c9_parser_requires_exact_format :
    (∀ (s : String) (d : PyDatetime), strptimeAmiFormat s = some d →
        ∃ u v x, s.data = u ++ '.' :: (v ++ [x]) ∧ x.toLower = 'z') ∧
      strptimeAmiFormat ("2016-06-22T09:19:44Z") = none ∧
      strptimeAmiFormat ("2016-06-22T09:19:44+00:00") = none ∧
      strptimeAmiFormat ("2016-06-22T09:19:44.000+00:00") = none ∧
      strptimeAmiFormat ("2016-06-22T09:19:44.000Z") =
        some ⟨2016, 6, 22, 9, 19, 44, 0⟩ ∧
      (∀ threshold : PyDatetime,
        find_amis_post threshold
          [⟨"ami-0003", "img", "x86_64", "hvm", "2016-06-22T09:19:44Z"⟩] =
          .error ()) := by
  refine ⟨?_, by decide, by decide, by decide, by decide, ?_⟩
  · intro s d h
    unfold strptimeAmiFormat at h
    cases h1 : parseNDigits 4 s.data with
    | none => simp [h1] at h
    | some p1 =>
    simp only [h1] at h
    cases h2 : expectChar '-' p1.2 with
    | none => simp [h2] at h
    | some s1 =>
    simp only [h2] at h
    cases h3 : parseUpTo2 s1 with
    | none => simp [h3] at h
    | some p2 =>
    simp only [h3] at h
    cases h4 : expectChar '-' p2.2 with
    | none => simp [h4] at h
    | some s2 =>
    simp only [h4] at h
    cases h5 : parseUpTo2 s2 with
    | none => simp [h5] at h
    | some p3 =>
    simp only [h5] at h
    cases h6 : expectCharCI 'T' p3.2 with
    | none => simp [h6] at h
    | some s3 =>
    simp only [h6] at h
    cases h7 : parseUpTo2 s3 with
    | none => simp [h7] at h
    | some p4 =>
    simp only [h7] at h
    cases h8 : expectChar ':' p4.2 with
    | none => simp [h8] at h
    | some s4 =>
    simp only [h8] at h
    cases h9 : parseUpTo2 s4 with
    | none => simp [h9] at h
    | some p5 =>
    simp only [h9] at h
    cases h10 : expectChar ':' p5.2 with
    | none => simp [h10] at h
    | some s5 =>
    simp only [h10] at h
    cases h11 : parseUpTo2 s5 with
    | none => simp [h11] at h
    | some p6 =>
    simp only [h11] at h
    cases h12 : expectChar '.' p6.2 with
    | none => simp [h12] at h
    | some s6 =>
    simp only [h12] at h
    cases h13 : parseFraction s6 with
    | none => simp [h13] at h
    | some p7 =>
    simp only [h13] at h
    cases h14 : expectCharCI 'Z' p7.2 with
    | none => simp [h14] at h
    | some s7 =>
    simp only [h14] at h
    split at h
    case isFalse => exact Option.noConfusion h
    case isTrue hcond =>
    have hs7 : s7 = [] := hcond.1
    have e1 : s.data = s.data.take 4 ++ p1.2 := parseNDigits_some_decomp h1
    obtain ⟨pre2, d3⟩ := parseUpTo2_some_decomp h3
    obtain ⟨pre3, d5⟩ := parseUpTo2_some_decomp h5
    obtain ⟨xT, d6, hxT⟩ := expectCharCI_some_decomp h6
    obtain ⟨pre4, d7⟩ := parseUpTo2_some_decomp h7
    obtain ⟨pre5, d9⟩ := parseUpTo2_some_decomp h9
    obtain ⟨pre6, d11⟩ := parseUpTo2_some_decomp h11
    obtain ⟨fr, d13⟩ := parseFraction_some_decomp h13
    obtain ⟨xZ, d14, hxZ⟩ := expectCharCI_some_decomp h14
    rw [expectChar_some_decomp h2] at e1
    rw [d3] at e1
    rw [expectChar_some_decomp h4] at e1
    rw [d5] at e1
    rw [d6] at e1
    rw [d7] at e1
    rw [expectChar_some_decomp h8] at e1
    rw [d9] at e1
    rw [expectChar_some_decomp h10] at e1
    rw [d11] at e1
    rw [expectChar_some_decomp h12] at e1
    rw [d13] at e1
    rw [d14, hs7] at e1
    refine ⟨s.data.take 4 ++ '-' :: (pre2 ++ '-' :: (pre3 ++ xT ::
      (pre4 ++ ':' :: (pre5 ++ ':' :: pre6)))), fr, xZ, ?_, ?_⟩
    · conv_lhs => rw [e1]
      simp [List.append_assoc]
    · simpa using hxZ
  · intro threshold
    exact selectLatest_error_of_bad threshold
      (sortAmis [⟨"ami-0003", "img", "x86_64", "hvm", "2016-06-22T09:19:44Z"⟩])
      ⟨"ami-0003", "img", "x86_64", "hvm", "2016-06-22T09:19:44Z"⟩
      (by simp [sortAmis]) (by rfl)

/-- Witness for C9: the universal shape statement, applied at an accepted
concrete timestamp. -/
theorem c9_witness :
    ∃ u v x, ("2016-06-22T09:19:44.000Z").data = u ++ '.' :: (v ++ [x]) ∧
      x.toLower = 'z' :=
  c9_parser_requires_exact_format.1 ("2016-06-22T09:19:44.000Z")
    ⟨2016, 6, 22, 9, 19, 44, 0⟩ (by decide)
